import Mathlib

/-!
Verification development for `src/mux-system.py` (NNB-Movie).

The script is shallowly embedded: pure fragments of the Python become Lean
functions over `String`/`List`; filesystem enumeration results are passed in
as explicit lists of file names; calls into the external `muxtools`
collaborator become `Except String`-valued parameters of an environment
record; Python exceptions become `Except.error` carrying the stringified
message. String operations are re-implemented over `List Char` by structural
recursion so that every definition evaluates by kernel reduction.
-/

namespace MuxSystem

/-! ## String helpers mirroring the Python `str` operations used by the script -/

/-- Python `str.lower()` (ASCII range, which is all the script compares). -/
def pyLower (s : String) : String := ⟨s.data.map Char.toLower⟩

/-- Python `str.strip()`: drop whitespace from both ends. -/
def pyStrip (s : String) : String :=
  ⟨((s.data.dropWhile Char.isWhitespace).reverse.dropWhile Char.isWhitespace).reverse⟩

/-- Python `str.isdigit()`: nonempty and every character a digit. -/
def isDigits (s : String) : Bool := !s.data.isEmpty && s.data.all Char.isDigit

/-- Value of a decimal digit string (the only inputs `int()` receives here). -/
def strToNat (s : String) : Nat := s.data.foldl (fun a c => a * 10 + (c.toNat - 48)) 0

/-- Python `int(s)`: succeeds exactly on the nonempty all-digit strings that
reach it in this script, raising `ValueError` otherwise (here: `.error`). -/
def pyInt (s : String) : Except String Nat :=
  if isDigits s then .ok (strToNat s) else .error ("invalid literal for int with base 10: " ++ s)

/-- Helper for `splitChar`: accumulate the current segment (reversed). -/
def splitCharAux (sep : Char) : List Char → List Char → List String
  | [], acc => [⟨acc.reverse⟩]
  | c :: cs, acc =>
    if c = sep then ⟨acc.reverse⟩ :: splitCharAux sep cs []
    else splitCharAux sep cs (c :: acc)

/-- Python `str.split(sep)` for a one-character separator: keeps empty
segments, and splitting the empty string yields `[""]`. -/
def splitChar (sep : Char) (s : String) : List String := splitCharAux sep s.data []

/-- Substring containment on character lists (Python `needle in hay`). -/
def containsSub (hay needle : List Char) : Bool :=
  match hay with
  | [] => needle.isEmpty
  | h :: t => needle.isPrefixOf (h :: t) || containsSub t needle

/-- Python `needle in hay` for strings. -/
def strContains (hay needle : String) : Bool := containsSub hay.data needle.data

/-- Python `c in s` for a single character. -/
def strContainsChar (s : String) (c : Char) : Bool := s.data.contains c

/-- Python `str.endswith`. -/
def strEndsWith (s suf : String) : Bool := suf.data.isSuffixOf s.data

/-- Python `s[:n]`. -/
def strTake (s : String) (n : Nat) : String := ⟨s.data.take n⟩

/-- Drop the last `n` characters. -/
def strDropRight (s : String) (n : Nat) : String := ⟨s.data.take (s.data.length - n)⟩

/-- Python `s.replace("-", "")`. -/
def removeHyphens (s : String) : String := ⟨s.data.filter (· ≠ '-')⟩

/-! ## Data model (`mux-system.py` lines 35-81) -/

/-- Episode identifier: the Python type `str | int` (integers produced by the
parser are the nonnegative results of `int` on digit strings). -/
inductive Ep where
  | int (n : Nat)
  | str (s : String)
deriving DecidableEq

/-- The `RunMode` enum. -/
inductive RunMode where
  | NORMAL
  | DRYRUN
deriving DecidableEq

/-- The `MuxResult` dataclass. -/
structure MuxResult where
  episode : Ep
  success : Bool
  error : Option String := none
deriving DecidableEq

/-- The `ShowConfig` dataclass; directories are carried as path strings. -/
structure ShowConfig where
  name : String
  premux_dir : String
  sub_dir : String
  audio_dir : String
  tmdb_id : Nat
  titles : List String
deriving DecidableEq

/-- `ShowConfig.from_defaults()` with the script directory rendered as `"."`. -/
def CONFIG : ShowConfig :=
  { name := "Non Non Biyori Vacation"
    premux_dir := "./premux"
    sub_dir := "./subtitle"
    audio_dir := "./audio"
    tmdb_id := 494471
    titles := ["Liburan"] }

/-- `_get_episode_str`: integers render as two-digit zero-padded decimal
(Python `f"{episode:02d}"` for a nonnegative int), strings pass through. -/
def _get_episode_str : Ep → String
  | .int n => if n < 10 then "0" ++ Nat.repr n else Nat.repr n
  | .str s => s

/-! ## Episode argument parser (`parse_episodes`, lines 258-281) -/

/-- Python `Path.stem` for a name that ends in `".ass"`: the name `".ass"`
has no suffix and is its own stem; otherwise the last dot of the name is the
one starting `".ass"`, so the stem drops the final four characters. -/
def assStem (name : String) : String :=
  if name.length ≤ 4 then name else strDropRight name 4

/-- The integers collected by the `"all"` branch, in directory-enumeration
order and with multiplicity: from each `*.ass` file whose stem has an
all-digit first-two-character slice `stem[:2]`, the value `int(stem[:2])`. -/
def allEpisodeInts (files : List String) : List Nat :=
  (files.filter (fun f => strEndsWith f (".ass"))).filterMap (fun f =>
    if isDigits (strTake (assStem f) 2) then some (strToNat (strTake (assStem f) 2)) else none)

/-- Helper for `pyDedup`: keep an element unless it was already seen. -/
def pyDedupAux {α : Type} [DecidableEq α] : List α → List α → List α
  | [], _ => []
  | x :: xs, seen =>
    if x ∈ seen then pyDedupAux xs seen else x :: pyDedupAux xs (x :: seen)

/-- Order-preserving de-duplication keeping first occurrences: the effect of
Python `list(dict.fromkeys(eps))`, and of forming a `set` when the result is
subsequently sorted by an injective key. -/
def pyDedup {α : Type} [DecidableEq α] (l : List α) : List α := pyDedupAux l []

/-- Lexicographic comparison of character lists by code point, with a proper
prefix comparing as smaller: the `<=` of Python strings. -/
def charListLe : List Char → List Char → Bool
  | [], _ => true
  | _ :: _, [] => false
  | a :: as, b :: bs =>
    if a.toNat < b.toNat then true
    else if b.toNat < a.toNat then false
    else charListLe as bs

/-- Python `a <= b` on strings. -/
def strLeb (a b : String) : Bool := charListLe a.data b.data

/-- The sort key used by the `"all"` branch: `sorted(..., key=lambda x: str(x))`
compares the decimal renderings of the integers lexicographically. -/
def strKeyLe (a b : Nat) : Bool := strLeb (Nat.repr a) (Nat.repr b)

/-- Insert into a list sorted by `strKeyLe` (helper for `sortByKey`). -/
def insertKey (x : Nat) : List Nat → List Nat
  | [] => [x]
  | y :: ys => if strKeyLe x y then x :: y :: ys else y :: insertKey x ys

/-- Insertion sort by `strKeyLe`: the effect of Python
`sorted(..., key=lambda x: str(x))`. On a duplicate-free list the result is
the unique enumeration that is sorted by the (injective) string key, so it
does not depend on the iteration order of the Python `set` it sorts. -/
def sortByKey : List Nat → List Nat
  | [] => []
  | x :: xs => insertKey x (sortByKey xs)

/-- Python `range(a, b + 1)` wrapped into episode values: the inclusive
integer range; empty when `b < a`. -/
def rangeEps (a b : Nat) : List Ep := (List.range' a (b + 1 - a)).map Ep.int

/-- The Python `for part in arg.split(",")` loop body of `parse_episodes`,
before de-duplication. A raised `ValueError` (failed `int` conversion, or a
hyphen split that does not unpack into exactly two values) aborts the loop. -/
def parseLoop : List String → Except String (List Ep)
  | [] => .ok []
  | p :: rest =>
    let part := pyStrip p
    if strContainsChar part '-' && isDigits (removeHyphens part) then
      match (splitChar '-' part).mapM pyInt with
      | .error e => .error e
      | .ok [a, b] =>
        match parseLoop rest with
        | .error e => .error e
        | .ok tl => .ok (rangeEps a b ++ tl)
      | .ok _ => .error "range segment did not unpack into two values"
    else if isDigits part then
      match parseLoop rest with
      | .error e => .error e
      | .ok tl => .ok (Ep.int (strToNat part) :: tl)
    else
      match parseLoop rest with
      | .error e => .error e
      | .ok tl => .ok (Ep.str part :: tl)

/-- `parse_episodes`. The subtitle-directory contents (used only by the
`"all"` branch) are passed in as the list of file names the glob enumerates.
The Python `set` plus `sorted` pair is rendered as first-occurrence
de-duplication followed by an insertion sort on the string key; since the key
is injective on distinct integers, the sorted list is the same for any
iteration order of the set. -/
def parse_episodes (arg : String) (subFiles : List String) : Except String (List Ep) :=
  if pyLower arg == "all" then
    .ok ((sortByKey (pyDedup (allEpisodeInts subFiles))).map Ep.int)
  else
    (parseLoop (splitChar ',' arg)).map pyDedup

/-- Claim-side description of one trimmed segment of a non-`"all"`
specification: an inclusive integer range when it contains a hyphen and is
entirely digits after removing hyphens (an error unless the hyphen split
yields exactly two convertible pieces), a single integer when entirely
digits, and an opaque string token otherwise. -/
def segmentEps (p : String) : Except String (List Ep) :=
  let part := pyStrip p
  if strContainsChar part '-' && isDigits (removeHyphens part) then
    match (splitChar '-' part).mapM pyInt with
    | .error e => .error e
    | .ok [a, b] => .ok (rangeEps a b)
    | .ok _ => .error "range segment did not unpack into two values"
  else if isDigits part then .ok [Ep.int (strToNat part)]
  else .ok [Ep.str part]

/-- Concatenation of the per-segment expansions, failing at the first
segment that raises. -/
def segmentsEps : List String → Except String (List Ep)
  | [] => .ok []
  | p :: ps =>
    match segmentEps p, segmentsEps ps with
    | .ok l, .ok tl => .ok (l ++ tl)
    | .error e, _ => .error e
    | .ok _, .error e => .error e

/-! ## Resource locator (`_find_video` lines 84-111, `_find_audio` lines 114-141)

The filesystem enumeration that `GlobSearch` performs is passed in as a list
of file names in enumeration order: for the video lookup, the names of the
`*.mkv` files under the premux directory; for the audio lookup, the names of
all files under the audio directory, against which the glob pattern is
matched here. -/

/-- The standard episode match on a video file name: it contains
`" - {ep} "`, `"E{ep})"`, or `"S01E{ep}"` as a substring. -/
def videoNameMatch (ep name : String) : Bool :=
  strContains name (" - " ++ ep ++ " ") || strContains name ("E" ++ ep ++ ")") ||
    strContains name ("S01E" ++ ep)

/-- `_find_video`: first name matching `videoNameMatch` wins; otherwise, for
episode `"01"` or (case-insensitively) `"movie"` with a nonempty listing,
a sole file is returned, else the first name containing `"Vacation"`;
otherwise a `FileNotFoundError` is raised. -/
def _find_video (ep : String) (paths : List String) : Except String String :=
  match paths.find? (fun p => videoNameMatch ep p) with
  | some p => .ok p
  | none =>
    if ep == "01" || pyLower ep == "movie" then
      match paths with
      | [] => .error ("Video file not found for episode " ++ ep)
      | [p] => .ok p
      | _ :: _ :: _ =>
        match paths.find? (fun p => strContains p ("Vacation")) with
        | some p => .ok p
        | none => .error ("Video file not found for episode " ++ ep)
    else .error ("Video file not found for episode " ++ ep)

/-- Sequential containment: some occurrence of `a` is followed (not
necessarily adjacently) by an occurrence of `b`. -/
def seqSub (hay a b : List Char) : Bool :=
  match hay with
  | [] => a.isEmpty && b.isEmpty
  | h :: t => (a.isPrefixOf (h :: t) && containsSub ((h :: t).drop a.length) b) || seqSub t a b

/-- fnmatch of the glob `*Audio*{ep}*.flac` against a file name: the name
ends with `".flac"`, and before that suffix an occurrence of `"Audio"` is
followed by an occurrence of `ep`. -/
def audioGlobMatch (ep name : String) : Bool :=
  strEndsWith name (".flac") && seqSub (strDropRight name 5).data ("Audio").data ep.data

/-- `_find_audio`: the search string is `ep` with a case-insensitive
`"movie"` translated to `"01"`; if the glob finds nothing and the episode
token was `"movie"`, the search is retried with the pattern for `"01"`, and a
`FileNotFoundError` is raised if there is still no match. The first matching
path wins. -/
def _find_audio (ep : String) (files : List String) : Except String String :=
  let search_str := if pyLower ep == "movie" then "01" else ep
  match files.filter (fun n => audioGlobMatch search_str n) with
  | p :: _ => .ok p
  | [] =>
    if pyLower ep == "movie" then
      match files.filter (fun n => audioGlobMatch ("01") n) with
      | p :: _ => .ok p
      | [] => .error ("Audio file not found for episode " ++ ep)
    else .error ("Audio file not found for episode " ++ ep)

/-! ## Episode orchestrator (`mux_episode`, lines 144-255) -/

/-- `_get_subtitle_file` (lines 144-152): raises `FileNotFoundError` when the
path does not exist, then runs the collaborator pipeline
(`SubFile` construction, `merge`, `clean_styles`, `clean_garbage`), whose
outcome is the `collab` parameter. -/
def _get_subtitle_file (pathExists : Bool) (subPath : String)
    (collab : Except String Unit) : Except String Unit :=
  if !pathExists then .error ("Subtitle file not found at " ++ subPath)
  else collab

/-- Environment of one `mux_episode` call: the filesystem listings consumed
by the resource locator, the existence of the two subtitle files, and the
outcome of each call into the external `muxtools` collaborator (an
`Except.error` models the call raising, carrying the stringified message).
`setup` is the `Setup(...)` constructor, receiving the two naming strings
computed from flag, version and title; `muxCall` returns the output name. -/
structure MuxEnv where
  setup : String → String → Except String Unit
  premuxFiles : List String
  audioFiles : List String
  caramelExists : Bool
  melodyExists : Bool
  caramelSub : Except String Unit
  melodySub : Except String Unit
  setTimesource : Except String Unit
  audioLoad : Except String Unit
  chaptersLoad : Except String Unit
  chaptersNonempty : Bool
  fontsCaramel : Except String Unit
  fontsMelody : Except String Unit
  premuxCtor : Except String Unit
  muxCall : Except String String

/-- Run one collaborator call inside the `try` block: the call is recorded in
the trace of invoked collaborator steps; an error short-circuits. -/
def step (name : String) (r : Except String Unit)
    (k : Except String Unit × List String) : Except String Unit × List String :=
  match r with
  | .error e => (.error e, [name])
  | .ok _ => (k.1, name :: k.2)

/-- Body of the `try` block of `mux_episode` (lines 186-251): resolve video
and audio, short-circuit to success in dry-run mode, otherwise run the
audio/subtitle/chapter/font pipeline and the final `mux` call. The returned
list records which collaborator steps were invoked, in order (resource
lookups read only the directory listings and are not collaborator steps). -/
def tryBody (ep_str : String) (mode : RunMode) (cfg : ShowConfig) (env : MuxEnv) :
    Except String Unit × List String :=
  match _find_video ep_str env.premuxFiles with
  | .error e => (.error e, [])
  | .ok _video =>
    match _find_audio ep_str env.audioFiles with
    | .error e => (.error e, [])
    | .ok _audio =>
      match mode with
      | .DRYRUN => (.ok (), [])
      | .NORMAL =>
        step ("set_default_sub_timesource") env.setTimesource <|
        step ("AudioFile") env.audioLoad <|
        step ("prepare_sub_caramel")
          (_get_subtitle_file env.caramelExists (cfg.sub_dir ++ "/Caramel.ass") env.caramelSub) <|
        step ("prepare_sub_melody")
          (_get_subtitle_file env.melodyExists (cfg.sub_dir ++ "/Melody.ass") env.melodySub) <|
        step ("chapters") env.chaptersLoad <|
        step ("collect_fonts_caramel") env.fontsCaramel <|
        step ("collect_fonts_melody") env.fontsMelody <|
        step ("premux_ctor") env.premuxCtor <|
        (match env.muxCall with
         | .error e => (.error e, [("mux" : String)])
         | .ok _ => (.ok (), [("mux" : String)]))

/-- `mux_episode` (lines 155-255). Everything up to and including the
`Setup(...)` call happens before the `try` block, so an error raised by
`Setup` propagates to the caller (the outer `Except.error`); every error
raised inside the `try` block is converted into a failure `MuxResult`
carrying the stringified error. The second component of a returned pair is
the trace of invoked collaborator steps from `tryBody`. -/
def mux_episode (episode : Ep) (version : Nat) (flag : String) (mode : RunMode)
    (cfg : ShowConfig) (env : MuxEnv) : Except String (MuxResult × List String) :=
  let ep_str := _get_episode_str episode
  let version_str := if version == 1 then "" else " v" ++ Nat.repr version
  let title :=
    match episode with
    | .int n =>
      if cfg.titles ≠ [] ∧ 1 ≤ n ∧ n ≤ cfg.titles.length then
        " | " ++ (cfg.titles.get? (n - 1)).getD ""
      else ""
    | .str _ => ""
  let out_name := "[" ++ flag ++ "] $show$ - $ep$" ++ version_str ++
    " (BDRip 1920x1080 HEVC FLAC) [$crc32$]"
  let mkv_title := "$show$ - $ep$" ++ version_str ++ title
  match env.setup out_name mkv_title with
  | .error e => .error e
  | .ok _ =>
    match tryBody ep_str mode cfg env with
    | (.ok _, tr) => .ok ({ episode := episode, success := true, error := none }, tr)
    | (.error e, tr) => .ok ({ episode := episode, success := false, error := some e }, tr)

/-! ## Batch runner (`main`, lines 284-327) -/

/-- The list comprehension of `main` (lines 313-322): run the orchestrator
once per episode, sequentially; an exception escaping `mux_episode` aborts
the batch (outer `Except.error`). -/
def runAll (version : Nat) (flag : String) (mode : RunMode) (cfg : ShowConfig)
    (envOf : Ep → MuxEnv) : List Ep → Except String (List MuxResult)
  | [] => .ok []
  | e :: es =>
    match mux_episode e version flag mode cfg (envOf e) with
    | .error m => .error m
    | .ok (r, _) =>
      match runAll version flag mode cfg envOf es with
      | .error m => .error m
      | .ok rs => .ok (r :: rs)

/-- `main` after argument parsing: `episodesArg` is the positional episode
specification, `subFiles` the subtitle-directory listing consumed by
`parse_episodes ("all")`, `mkdirRes` the outcome of the output-directory
creation attempted when not a dry run, and `envOf` the per-episode
orchestration environment. A `ValueError` from parsing returns 1, an empty
episode list returns 1, and otherwise the exit status is 0 exactly when the
count of successful results equals the number of results; an exception
escaping any component is the outer `Except.error` (the script crashes). -/
def main (episodesArg : String) (subFiles : List String) (version : Nat) (flag : String)
    (dryRun : Bool) (mkdirRes : Except String Unit) (cfg : ShowConfig)
    (envOf : Ep → MuxEnv) : Except String Nat :=
  match parse_episodes episodesArg subFiles with
  | .error _ => .ok 1
  | .ok eps =>
    if eps.isEmpty then .ok 1
    else
      match (if dryRun then Except.ok () else mkdirRes) with
      | .error e => .error e
      | .ok _ =>
        match runAll version flag (if dryRun then RunMode.DRYRUN else RunMode.NORMAL)
            cfg envOf eps with
        | .error m => .error m
        | .ok results =>
          .ok (if (results.filter (fun r => r.success)).length == results.length then 0 else 1)

/-! ## Concrete environments used by witnesses and counterexamples -/

/-- An environment in which every collaborator call succeeds and both
lookups resolve. -/
def env0 : MuxEnv :=
  { setup := fun _ _ => .ok ()
    premuxFiles := ["Non Non Biyori Vacation (BD 1080p HEVC).mkv"]
    audioFiles := ["NNB Vacation Audio 01 [FLAC].flac"]
    caramelExists := true
    melodyExists := true
    caramelSub := .ok ()
    melodySub := .ok ()
    setTimesource := .ok ()
    audioLoad := .ok ()
    chaptersLoad := .ok ()
    chaptersNonempty := true
    fontsCaramel := .ok ()
    fontsMelody := .ok ()
    premuxCtor := .ok ()
    muxCall := .ok ("out.mkv") }

/-- `env0` with a `Setup(...)` call that raises. -/
def envSetupRaises : MuxEnv := { env0 with setup := fun _ _ => .error ("boom") }

/-- `env0` with an audio directory in which nothing matches the glob. -/
def envNoAudio : MuxEnv := { env0 with audioFiles := ["readme.txt"] }

/-! ## Helper lemmas about de-duplication -/

theorem pyDedupAux_mem {α : Type} [DecidableEq α] (l seen : List α) (x : α) :
    x ∈ pyDedupAux l seen ↔ x ∈ l ∧ x ∉ seen := by
  induction l generalizing seen with
  | nil => simp [pyDedupAux]
  | cons a as ih =>
    simp only [pyDedupAux]
    by_cases ha : a ∈ seen
    · rw [if_pos ha, ih]
      constructor
      · rintro ⟨hx, hns⟩
        exact ⟨List.mem_cons_of_mem a hx, hns⟩
      · rintro ⟨hx, hns⟩
        rcases List.mem_cons.mp hx with rfl | hx
        · exact absurd ha hns
        · exact ⟨hx, hns⟩
    · rw [if_neg ha]
      simp only [List.mem_cons, ih]
      constructor
      · rintro (rfl | ⟨hx, hns⟩)
        · exact ⟨Or.inl rfl, ha⟩
        · exact ⟨Or.inr hx, fun hs => hns (Or.inr hs)⟩
      · rintro ⟨rfl | hx, hns⟩
        · exact Or.inl rfl
        · by_cases hxa : x = a
          · exact Or.inl hxa
          · exact Or.inr ⟨hx, by simp [List.mem_cons, hxa, hns]⟩

theorem pyDedupAux_sublist {α : Type} [DecidableEq α] (l seen : List α) :
    (pyDedupAux l seen).Sublist l := by
  induction l generalizing seen with
  | nil => simp [pyDedupAux]
  | cons a as ih =>
    simp only [pyDedupAux]
    by_cases ha : a ∈ seen
    · rw [if_pos ha]
      exact (ih seen).cons a
    · rw [if_neg ha]
      exact (ih (a :: seen)).cons₂ a

theorem pyDedupAux_nodup {α : Type} [DecidableEq α] (l seen : List α) :
    (pyDedupAux l seen).Nodup := by
  induction l generalizing seen with
  | nil => simp [pyDedupAux]
  | cons a as ih =>
    simp only [pyDedupAux]
    by_cases ha : a ∈ seen
    · rw [if_pos ha]; exact ih seen
    · rw [if_neg ha]
      refine List.nodup_cons.mpr ⟨fun hmem => ?_, ih (a :: seen)⟩
      exact ((pyDedupAux_mem as (a :: seen) a).mp hmem).2 (List.mem_cons_self a seen)

theorem pyDedup_mem {α : Type} [DecidableEq α] (l : List α) (x : α) :
    x ∈ pyDedup l ↔ x ∈ l := by
  simp [pyDedup, pyDedupAux_mem]

theorem pyDedup_sublist {α : Type} [DecidableEq α] (l : List α) :
    (pyDedup l).Sublist l := pyDedupAux_sublist l []

theorem pyDedup_nodup {α : Type} [DecidableEq α] (l : List α) :
    (pyDedup l).Nodup := pyDedupAux_nodup l []

/-! ## Helper lemmas about the lexicographic sort of the `"all"` branch -/

theorem charListLe_cons_iff (a b : Char) (as bs : List Char) :
    charListLe (a :: as) (b :: bs) = true ↔
      a.toNat < b.toNat ∨ (a.toNat = b.toNat ∧ charListLe as bs = true) := by
  simp only [charListLe]
  split_ifs with h1 h2
  · simp [h1]
  · simp only [Bool.false_eq_true, false_iff]
    rintro (h | ⟨h, _⟩) <;> omega
  · have heq : a.toNat = b.toNat := by omega
    simp [heq, h1]

theorem charListLe_total (as : List Char) : ∀ bs : List Char,
    charListLe as bs = true ∨ charListLe bs as = true := by
  induction as with
  | nil => intro bs; left; rfl
  | cons a as ih =>
    intro bs
    cases bs with
    | nil => right; rfl
    | cons b bs =>
      rw [charListLe_cons_iff, charListLe_cons_iff]
      rcases Nat.lt_trichotomy a.toNat b.toNat with h | h | h
      · exact Or.inl (Or.inl h)
      · rcases ih bs with h2 | h2
        · exact Or.inl (Or.inr ⟨h, h2⟩)
        · exact Or.inr (Or.inr ⟨h.symm, h2⟩)
      · exact Or.inr (Or.inl h)

theorem charListLe_trans (as : List Char) : ∀ bs cs : List Char,
    charListLe as bs = true → charListLe bs cs = true → charListLe as cs = true := by
  induction as with
  | nil => intro bs cs _ _; rfl
  | cons a as ih =>
    intro bs cs h1 h2
    cases bs with
    | nil => simp [charListLe] at h1
    | cons b bs =>
      cases cs with
      | nil => simp [charListLe] at h2
      | cons c cs =>
        rw [charListLe_cons_iff] at h1 h2 ⊢
        rcases h1 with h1 | ⟨h1e, h1r⟩
        · rcases h2 with h2 | ⟨h2e, _⟩
          · exact Or.inl (by omega)
          · exact Or.inl (by omega)
        · rcases h2 with h2 | ⟨h2e, h2r⟩
          · exact Or.inl (by omega)
          · exact Or.inr ⟨by omega, ih bs cs h1r h2r⟩

theorem strKeyLe_total (a b : Nat) : strKeyLe a b = true ∨ strKeyLe b a = true :=
  charListLe_total _ _

theorem strKeyLe_trans {a b c : Nat} (h1 : strKeyLe a b = true) (h2 : strKeyLe b c = true) :
    strKeyLe a c = true := charListLe_trans _ _ _ h1 h2

theorem insertKey_mem (x : Nat) (l : List Nat) (y : Nat) :
    y ∈ insertKey x l ↔ y = x ∨ y ∈ l := by
  induction l with
  | nil => simp [insertKey]
  | cons a as ih =>
    simp only [insertKey]
    split_ifs with h
    · simp [List.mem_cons]
    · simp only [List.mem_cons, ih]
      tauto

theorem sortByKey_mem (l : List Nat) (y : Nat) : y ∈ sortByKey l ↔ y ∈ l := by
  induction l with
  | nil => simp [sortByKey]
  | cons a as ih => simp [sortByKey, insertKey_mem, ih]

theorem insertKey_pairwise (x : Nat) (l : List Nat)
    (h : l.Pairwise (fun a b => strKeyLe a b = true)) :
    (insertKey x l).Pairwise (fun a b => strKeyLe a b = true) := by
  induction l with
  | nil => simp [insertKey]
  | cons a as ih =>
    rcases List.pairwise_cons.mp h with ⟨ha, has⟩
    simp only [insertKey]
    split_ifs with hxa
    · refine List.pairwise_cons.mpr ⟨?_, h⟩
      intro z hz
      rcases List.mem_cons.mp hz with rfl | hz
      · exact hxa
      · exact strKeyLe_trans hxa (ha z hz)
    · refine List.pairwise_cons.mpr ⟨?_, ih has⟩
      intro z hz
      rcases (insertKey_mem x as z).mp hz with rfl | hz
      · rcases strKeyLe_total z a with h1 | h1
        · exact absurd h1 hxa
        · exact h1
      · exact ha z hz

theorem sortByKey_pairwise (l : List Nat) :
    (sortByKey l).Pairwise (fun a b => strKeyLe a b = true) := by
  induction l with
  | nil => simp [sortByKey]
  | cons a as ih => exact insertKey_pairwise a (sortByKey as) ih

theorem insertKey_nodup (x : Nat) (l : List Nat) (hx : x ∉ l) (h : l.Nodup) :
    (insertKey x l).Nodup := by
  induction l with
  | nil => simp [insertKey]
  | cons a as ih =>
    rcases List.nodup_cons.mp h with ⟨ha, has⟩
    simp only [insertKey]
    split_ifs with hxa
    · exact List.nodup_cons.mpr ⟨hx, h⟩
    · refine List.nodup_cons.mpr ⟨?_, ih (fun hmem => hx (List.mem_cons_of_mem a hmem)) has⟩
      intro hmem
      rcases (insertKey_mem x as a).mp hmem with rfl | hmem
      · exact hx (List.mem_cons_self a as)
      · exact ha hmem

theorem sortByKey_nodup (l : List Nat) (h : l.Nodup) : (sortByKey l).Nodup := by
  induction l with
  | nil => simp [sortByKey]
  | cons a as ih =>
    rcases List.nodup_cons.mp h with ⟨ha, has⟩
    exact insertKey_nodup a (sortByKey as) (fun hm => ha ((sortByKey_mem as a).mp hm)) (ih has)

/-! ## Helper lemmas about the parser loop -/

theorem parseLoop_eq_segmentsEps : ∀ ps : List String, parseLoop ps = segmentsEps ps := by
  intro ps
  induction ps with
  | nil => rfl
  | cons p rest ih =>
    simp only [parseLoop, segmentsEps, segmentEps]
    split_ifs with h1 h2
    · cases hm : (splitChar '-' (pyStrip p)).mapM pyInt with
      | error e => rfl
      | ok l =>
        match l with
        | [] => rw [ih]
        | [a] => rw [ih]
        | [a, b] => rw [ih]; cases segmentsEps rest <;> rfl
        | a :: b :: c :: t => rw [ih]
    · rw [ih]; cases segmentsEps rest <;> rfl
    · rw [ih]; cases segmentsEps rest <;> rfl

theorem parse_episodes_not_all (arg : String) (files : List String)
    (h : pyLower arg ≠ "all") :
    parse_episodes arg files = (parseLoop (splitChar ',' arg)).map pyDedup := by
  rw [parse_episodes, if_neg]
  simp [h]

/-! ## Claim-side definitions for C3 -/

/-- Predicate written from the words of claim C3: the leading two characters
of the file NAME are digits (the code instead tests `p.stem[:2].isdigit()`,
which also accepts a single-character all-digit stem). -/
def nameLeadingTwoDigits (name : String) : Bool :=
  decide ((name.data.take 2).length = 2) && (name.data.take 2).all Char.isDigit

/-- Collection written from the words of claim C3: the integers obtained
from the `.ass` files whose leading two name characters are digits. -/
def claimedAllInts (files : List String) : List Nat :=
  (files.filter (fun f => strEndsWith f (".ass") && nameLeadingTwoDigits f)).map
    (fun f => strToNat (strTake f 2))

/-! ## Claim theorems for the episode argument parser -/

/-- C3, counterexample: with the subtitle directory containing the single
file `5.ass` (stem `"5"`, `stem[:2] = "5"`, which `isdigit` accepts),
`parse_episodes "all"` returns `[5]`, although the leading two characters of
that file name are `"5."`, not digits — so the result is not the set of
integers obtained from the `.ass` files whose name has a two-digit leading
pair, as the claim states. -/
theorem C3_counterexample :
    parse_episodes ("all") ["5.ass"] = .ok [.int 5] ∧
    nameLeadingTwoDigits ("5.ass") = false ∧
    claimedAllInts ["5.ass"] = [] ∧
    parse_episodes ("all") ["5.ass"] ≠
      .ok ((sortByKey (pyDedup (claimedAllInts ["5.ass"]))).map Ep.int) := by
  refine ⟨rfl, rfl, rfl, fun h => ?_⟩
  exact List.cons_ne_nil _ _ (Except.ok.inj h)

/-- C3, amended: for every specification case-insensitively equal to "all",
`parse_episodes` returns exactly the set of integers `int(stem[:2])` of the
`.ass` files whose stem has an all-digit (nonempty, at most two characters)
leading slice `stem[:2]`, without duplicates and sorted ascending by lexical
string comparison of the decimal identifier; in particular `01.ass, 05.ass,
movie.ass` yields `[1, 5]`. -/
theorem C3_all_branch (arg : String) (files : List String) (h : pyLower arg = "all") :
    ∃ l : List Nat, parse_episodes arg files = .ok (l.map Ep.int) ∧
      (∀ n : Nat, n ∈ l ↔ n ∈ allEpisodeInts files) ∧ l.Nodup ∧
      l.Pairwise (fun a b => strKeyLe a b = true) ∧
      parse_episodes ("all") ["01.ass", "05.ass", "movie.ass"] = .ok [.int 1, .int 5] := by
  refine ⟨sortByKey (pyDedup (allEpisodeInts files)), ?_, ?_, ?_, sortByKey_pairwise _, rfl⟩
  · simp [parse_episodes, h]
  · intro n; rw [sortByKey_mem, pyDedup_mem]
  · exact sortByKey_nodup _ (pyDedup_nodup _)

theorem C3_all_branch_witness :
    pyLower ("all") = "all" ∧
    (∃ l : List Nat,
      parse_episodes ("all") ["01.ass", "05.ass", "movie.ass"] = .ok (l.map Ep.int) ∧
      (∀ n : Nat, n ∈ l ↔ n ∈ allEpisodeInts ["01.ass", "05.ass", "movie.ass"]) ∧ l.Nodup ∧
      l.Pairwise (fun a b => strKeyLe a b = true) ∧
      parse_episodes ("all") ["01.ass", "05.ass", "movie.ass"] = .ok [.int 1, .int 5]) :=
  ⟨rfl, C3_all_branch ("all") ["01.ass", "05.ass", "movie.ass"] rfl⟩

/-- C4: for every non-"all" specification string, `parse_episodes` expands
each trimmed comma-separated segment by the trichotomy of `segmentEps`
(inclusive integer range when the segment contains a hyphen and is entirely
digits after removing hyphens, single integer when entirely digits, opaque
string token otherwise), concatenated in order and then de-duplicated; in
particular "1-3,5,movie" parses to `[1, 2, 3, 5, "movie"]`, and a hyphen
segment that does not resolve to exactly two integers (or whose integer
conversion fails) raises a parsing error propagated to the caller. -/
theorem C4_segment_interpretation :
    (∀ files : List String, parse_episodes ("1-3,5,movie") files =
      .ok [.int 1, .int 2, .int 3, .int 5, .str ("movie")]) ∧
    (∀ (arg : String) (files : List String), pyLower arg ≠ "all" →
      parse_episodes arg files = (segmentsEps (splitChar ',' arg)).map pyDedup) ∧
    (∀ files : List String, (parse_episodes ("1-2-3") files).isOk = false) ∧
    (∀ files : List String, (parse_episodes ("-5") files).isOk = false) ∧
    (∀ files : List String, (parse_episodes ("5-") files).isOk = false) := by
  refine ⟨fun _ => rfl, ?_, fun _ => rfl, fun _ => rfl, fun _ => rfl⟩
  intro arg files h
  rw [parse_episodes_not_all arg files h, parseLoop_eq_segmentsEps]

theorem C4_segment_interpretation_witness :
    pyLower ("1-3,5,movie") ≠ "all" ∧
    parse_episodes ("1-3,5,movie") [] =
      (segmentsEps (splitChar ',' ("1-3,5,movie"))).map pyDedup :=
  ⟨by decide, C4_segment_interpretation.2.1 ("1-3,5,movie") [] (by decide)⟩

/-- C5: for every non-"all" specification, the returned list has no
duplicate episode identifiers, and it is the order-preserving
first-occurrence de-duplication of the raw expansion (a sublist of it with
the same members); in particular "2,1-2" parses to `[2, 1]`. -/
theorem C5_dedup_invariant :
    (∀ (arg : String) (files : List String) (l : List Ep), pyLower arg ≠ "all" →
      parse_episodes arg files = .ok l →
      l.Nodup ∧ ∃ raw : List Ep, parseLoop (splitChar ',' arg) = .ok raw ∧
        l = pyDedup raw ∧ l.Sublist raw ∧ (∀ x : Ep, x ∈ l ↔ x ∈ raw)) ∧
    (∀ files : List String, parse_episodes ("2,1-2") files = .ok [.int 2, .int 1]) := by
  refine ⟨?_, fun _ => rfl⟩
  intro arg files l h hp
  rw [parse_episodes_not_all arg files h] at hp
  cases hr : parseLoop (splitChar ',' arg) with
  | error e => rw [hr] at hp; exact Except.noConfusion hp
  | ok raw =>
    rw [hr] at hp
    simp only [Except.map] at hp
    have hl : l = pyDedup raw := (Except.ok.inj hp).symm
    subst hl
    exact ⟨pyDedup_nodup raw, raw, rfl, rfl, pyDedup_sublist raw, fun x => pyDedup_mem raw x⟩

theorem C5_dedup_invariant_witness :
    [Ep.int 2, Ep.int 1].Nodup ∧
    ∃ raw : List Ep, parseLoop (splitChar ',' ("2,1-2")) = .ok raw ∧
      [Ep.int 2, Ep.int 1] = pyDedup raw ∧ [Ep.int 2, Ep.int 1].Sublist raw ∧
      (∀ x : Ep, x ∈ [Ep.int 2, Ep.int 1] ↔ x ∈ raw) :=
  C5_dedup_invariant.1 ("2,1-2") [] [Ep.int 2, Ep.int 1] (by decide) rfl

/-- C10: a hyphen-range segment whose start exceeds its end raises no error
and contributes no episodes (Python `range(start, end + 1)` is empty when
`end < start`); in particular the specification "5-3" parses to the empty
list, and "10-2,7" parses to `[7]`. -/
theorem C10_degenerate_range :
    (∀ a b : Nat, b < a → rangeEps a b = []) ∧
    (∀ files : List String, parse_episodes ("5-3") files = .ok []) ∧
    (∀ files : List String, parse_episodes ("10-2,7") files = .ok [.int 7]) := by
  refine ⟨fun a b h => ?_, fun _ => rfl, fun _ => rfl⟩
  simp [rangeEps, Nat.sub_eq_zero_of_le h]

theorem C10_degenerate_range_witness :
    3 < 5 ∧ rangeEps 5 3 = [] ∧ parse_episodes ("5-3") ["x"] = .ok [] :=
  ⟨by decide, C10_degenerate_range.1 5 3 (by decide), C10_degenerate_range.2.1 ["x"]⟩

/-! ## Claim theorems for the resource locator -/

/-- C6: video lookup returns the first enumerated file whose name contains
`" - {ep} "`, `"E{ep})"` or `"S01E{ep}"`; when none matches and the episode
is "01" or case-insensitively "movie", it returns the sole file when exactly
one exists, otherwise the first file whose name contains "Vacation", and
raises NotFound when that also fails; with no fallback rule applying it
raises NotFound. In particular `["Show - 01 (BD).mkv"]` with episode "01"
resolves to that file, and two files with no match and no "Vacation" raise
NotFound. -/
theorem C6_find_video :
    (∀ (ep : String) (paths : List String) (p : String),
      paths.find? (fun q => videoNameMatch ep q) = some p →
      _find_video ep paths = .ok p) ∧
    (∀ (ep : String) (paths : List String),
      paths.find? (fun q => videoNameMatch ep q) = none →
      (ep = "01" ∨ pyLower ep = "movie") →
      ((∃ q, paths = [q] ∧ _find_video ep paths = .ok q) ∨
       (paths.length ≠ 1 ∧ _find_video ep paths =
         (match paths.find? (fun q => strContains q ("Vacation")) with
          | some q => .ok q
          | none => .error ("Video file not found for episode " ++ ep))))) ∧
    (∀ (ep : String) (paths : List String),
      paths.find? (fun q => videoNameMatch ep q) = none →
      ¬(ep = "01" ∨ pyLower ep = "movie") →
      _find_video ep paths = .error ("Video file not found for episode " ++ ep)) ∧
    _find_video ("01") ["Show - 01 (BD).mkv"] = .ok ("Show - 01 (BD).mkv") ∧
    _find_video ("01") ["A.mkv", "B.mkv"] =
      .error ("Video file not found for episode 01") := by
  refine ⟨?_, ?_, ?_, rfl, rfl⟩
  · intro ep paths p hfind
    simp [_find_video, hfind]
  · intro ep paths hfind hor
    have hb : (ep == "01" || pyLower ep == "movie") = true := by
      rcases hor with h | h <;> simp [h]
    match paths with
    | [] =>
      right
      refine ⟨by simp, ?_⟩
      simp [_find_video, hfind, hb]
    | [q] =>
      left
      exact ⟨q, rfl, by simp [_find_video, hfind, hb]⟩
    | a :: b :: t =>
      right
      refine ⟨by simp, ?_⟩
      simp only [_find_video, hfind, hb, if_true]
  · intro ep paths hfind hor
    have h1 : ep ≠ "01" := fun he => hor (Or.inl he)
    have h2 : pyLower ep ≠ "movie" := fun he => hor (Or.inr he)
    simp [_find_video, hfind, h1, h2]

theorem C6_find_video_witness :
    ["Show - 01 (BD).mkv"].find? (fun q => videoNameMatch ("01") q) =
      some ("Show - 01 (BD).mkv") ∧
    _find_video ("01") ["Show - 01 (BD).mkv"] = .ok ("Show - 01 (BD).mkv") :=
  ⟨rfl, C6_find_video.1 ("01") ["Show - 01 (BD).mkv"] ("Show - 01 (BD).mkv") rfl⟩

/-- C7: audio lookup filters the audio directory by the glob
`*Audio*{ep}*.flac` (`audioGlobMatch`), with a case-insensitive "movie"
token first translated to "01"; the first matching path wins; when the
token was "movie" and nothing matched, the search is retried with the
pattern for "01", and a NotFound is raised if there is still no match;
a non-"movie" token with no match raises NotFound directly. -/
theorem C7_find_audio :
    (∀ (ep : String) (files : List String) (p : String) (rest : List String),
      pyLower ep ≠ "movie" →
      files.filter (fun n => audioGlobMatch ep n) = p :: rest →
      _find_audio ep files = .ok p) ∧
    (∀ (ep : String) (files : List String) (p : String) (rest : List String),
      pyLower ep = "movie" →
      files.filter (fun n => audioGlobMatch ("01") n) = p :: rest →
      _find_audio ep files = .ok p) ∧
    (∀ (ep : String) (files : List String),
      pyLower ep ≠ "movie" →
      files.filter (fun n => audioGlobMatch ep n) = [] →
      _find_audio ep files = .error ("Audio file not found for episode " ++ ep)) ∧
    (∀ (ep : String) (files : List String),
      pyLower ep = "movie" →
      files.filter (fun n => audioGlobMatch ("01") n) = [] →
      _find_audio ep files = .error ("Audio file not found for episode " ++ ep)) ∧
    _find_audio ("Movie") ["NNB Vacation Audio 01 [FLAC].flac"] =
      .ok ("NNB Vacation Audio 01 [FLAC].flac") := by
  refine ⟨?_, ?_, ?_, ?_, rfl⟩
  · intro ep files p rest hm hf
    simp [_find_audio, hm, hf]
  · intro ep files p rest hm hf
    simp [_find_audio, hm, hf]
  · intro ep files hm hf
    simp [_find_audio, hm, hf]
  · intro ep files hm hf
    simp [_find_audio, hm, hf]

theorem C7_find_audio_witness :
    pyLower ("Movie") = "movie" ∧
    ["NNB Vacation Audio 01 [FLAC].flac"].filter
      (fun n => audioGlobMatch ("01") n) = ["NNB Vacation Audio 01 [FLAC].flac"] ∧
    _find_audio ("Movie") ["NNB Vacation Audio 01 [FLAC].flac"] =
      .ok ("NNB Vacation Audio 01 [FLAC].flac") :=
  ⟨rfl, rfl, C7_find_audio.2.1 ("Movie") ["NNB Vacation Audio 01 [FLAC].flac"]
    ("NNB Vacation Audio 01 [FLAC].flac") [] rfl rfl⟩

/-! ## Helper lemmas about the orchestrator -/

theorem find_audio_error_msg (ep : String) (files : List String) (msg : String)
    (h : _find_audio ep files = .error msg) :
    msg = "Audio file not found for episode " ++ ep := by
  simp only [_find_audio] at h
  cases h1 : files.filter
      (fun n => audioGlobMatch (if pyLower ep == "movie" then "01" else ep) n) with
  | cons p rest => rw [h1] at h; exact Except.noConfusion h
  | nil =>
    rw [h1] at h
    cases hm : (pyLower ep == "movie") with
    | false =>
      rw [hm] at h
      simp only [Bool.false_eq_true, if_false] at h
      exact (Except.error.inj h).symm
    | true =>
      rw [hm] at h
      simp only [if_true] at h
      cases h2 : files.filter (fun n => audioGlobMatch ("01") n) with
      | cons p rest => rw [h2] at h; exact Except.noConfusion h
      | nil =>
        rw [h2] at h
        exact (Except.error.inj h).symm

theorem success_count_eq_iff (rs : List MuxResult) :
    ((rs.filter (fun r => r.success)).length == rs.length) = true ↔
      ∀ r ∈ rs, r.success = true := by
  rw [beq_iff_eq]
  constructor
  · intro h r hr
    have heq : rs.filter (fun r => r.success) = rs :=
      (List.filter_sublist rs).eq_of_length h
    exact List.filter_eq_self.mp heq r hr
  · intro h
    rw [List.filter_eq_self.mpr h]

/-! ## Claim theorems for the orchestrator -/

/-- C2, counterexample: the `Setup(...)` collaborator call — the
output-naming step of the orchestration — happens before the `try` block of
`mux_episode`, so an error it raises escapes `mux_episode` to the caller
instead of being converted into a Failure result. -/
theorem C2_counterexample :
    mux_episode (.int 1) 1 ("testing") RunMode.NORMAL CONFIG envSetupRaises =
      .error ("boom") ∧
    (mux_episode (.int 1) 1 ("testing") RunMode.NORMAL CONFIG envSetupRaises).isOk = false :=
  ⟨rfl, rfl⟩

/-- C2, amended: when the `Setup(...)` call does not raise, `mux_episode`
never lets an exception escape: every error raised inside the `try` block
(resource resolution, subtitle/chapter/font preparation, or the external
mux call) is caught and converted into a Failure `MuxResult` carrying the
stringified error, and a clean run yields a Success result. An error raised
by the `Setup` output-naming collaborator call, which precedes the `try`
block, escapes to the batch layer. -/
theorem C2_try_block_conversion (episode : Ep) (version : Nat) (flag : String)
    (mode : RunMode) (cfg : ShowConfig) (env : MuxEnv)
    (hsetup : ∀ a b : String, env.setup a b = .ok ()) :
    (∃ (r : MuxResult) (tr : List String),
      mux_episode episode version flag mode cfg env = .ok (r, tr) ∧
      r.episode = episode ∧
      ((tryBody (_get_episode_str episode) mode cfg env).1 = .ok () →
        r.success = true ∧ r.error = none) ∧
      (∀ e : String, (tryBody (_get_episode_str episode) mode cfg env).1 = .error e →
        r.success = false ∧ r.error = some e)) ∧
    (∀ (env2 : MuxEnv) (e : String), (∀ a b : String, env2.setup a b = .error e) →
      mux_episode episode version flag mode cfg env2 = .error e) := by
  constructor
  · simp only [mux_episode]
    rw [hsetup]
    rcases htb : tryBody (_get_episode_str episode) mode cfg env with ⟨out, tr⟩
    cases out with
    | ok u =>
      refine ⟨{ episode := episode, success := true, error := none }, tr, rfl, rfl,
        fun _ => ⟨rfl, rfl⟩, fun e he => ?_⟩
      exact Except.noConfusion he
    | error e0 =>
      refine ⟨{ episode := episode, success := false, error := some e0 }, tr, rfl, rfl,
        fun hok => ?_, fun e he => ?_⟩
      · exact Except.noConfusion hok
      · have he0 : e0 = e := Except.error.inj he
        exact ⟨rfl, by rw [he0]⟩
  · intro env2 e h2
    simp only [mux_episode]
    rw [h2]

theorem C2_try_block_conversion_witness :
    ∃ (r : MuxResult) (tr : List String),
      mux_episode (.int 1) 1 ("testing") RunMode.NORMAL CONFIG env0 = .ok (r, tr) := by
  obtain ⟨⟨r, tr, h, -, -, -⟩, -⟩ :=
    C2_try_block_conversion (.int 1) 1 ("testing") RunMode.NORMAL CONFIG env0
      (fun _ _ => rfl)
  exact ⟨r, tr, h⟩

/-- C8: in Normal mode, when the video lookup resolves and the audio lookup
raises NotFound, `mux_episode` returns a Failure result whose error is
exactly the NotFound message, with an empty collaborator trace: the external
mux is never invoked, and no subtitle or chapter work begins. -/
theorem C8_audio_notfound (episode : Ep) (version : Nat) (flag : String)
    (cfg : ShowConfig) (env : MuxEnv)
    (hsetup : ∀ a b : String, env.setup a b = .ok ())
    (v : String) (hv : _find_video (_get_episode_str episode) env.premuxFiles = .ok v)
    (msg : String)
    (ha : _find_audio (_get_episode_str episode) env.audioFiles = .error msg) :
    mux_episode episode version flag RunMode.NORMAL cfg env =
      .ok ({ episode := episode, success := false, error := some msg }, []) ∧
    msg = "Audio file not found for episode " ++ _get_episode_str episode := by
  refine ⟨?_, find_audio_error_msg _ _ _ ha⟩
  simp only [mux_episode]
  rw [hsetup]
  simp only [tryBody, hv, ha]

theorem C8_audio_notfound_witness :
    mux_episode (.int 1) 1 ("testing") RunMode.NORMAL CONFIG envNoAudio =
      .ok ({ episode := .int 1, success := false,
             error := some ("Audio file not found for episode 01") }, []) :=
  (C8_audio_notfound (.int 1) 1 ("testing") CONFIG envNoAudio (fun _ _ => rfl)
    ("Non Non Biyori Vacation (BD 1080p HEVC).mkv") rfl
    ("Audio file not found for episode 01") rfl).1

/-- C9: in DryRun mode, when both lookups resolve, `mux_episode` returns a
Success result with an empty collaborator trace: the audio/subtitle/chapter
pipeline is never touched and the external mux is never invoked. -/
theorem C9_dryrun (episode : Ep) (version : Nat) (flag : String) (cfg : ShowConfig)
    (env : MuxEnv) (hsetup : ∀ a b : String, env.setup a b = .ok ())
    (v a : String)
    (hv : _find_video (_get_episode_str episode) env.premuxFiles = .ok v)
    (ha : _find_audio (_get_episode_str episode) env.audioFiles = .ok a) :
    mux_episode episode version flag RunMode.DRYRUN cfg env =
      .ok ({ episode := episode, success := true, error := none }, []) := by
  simp only [mux_episode]
  rw [hsetup]
  simp only [tryBody, hv, ha]

theorem C9_dryrun_witness :
    mux_episode (.int 1) 1 ("testing") RunMode.DRYRUN CONFIG env0 =
      .ok ({ episode := .int 1, success := true, error := none }, []) :=
  C9_dryrun (.int 1) 1 ("testing") CONFIG env0 (fun _ _ => rfl)
    ("Non Non Biyori Vacation (BD 1080p HEVC).mkv")
    ("NNB Vacation Audio 01 [FLAC].flac") rfl rfl

/-! ## Claim theorem for the batch runner -/

/-- C1: the batch runner returns exit status 0 exactly when the episode
specification parsed, the expanded list is nonempty, the run reached the
episode loop (output-directory creation did not fail when not a dry run),
every orchestration completed without an escaping exception, and every
produced `MuxResult` has `success = true`; it returns 1 when parsing raises
a parsing error, when the expanded episode list is empty, and when the
results were produced but at least one has `success = false`. -/
theorem C1_exit_status (arg : String) (subFiles : List String) (version : Nat)
    (flag : String) (dryRun : Bool) (mkdirRes : Except String Unit) (cfg : ShowConfig)
    (envOf : Ep → MuxEnv) :
    (main arg subFiles version flag dryRun mkdirRes cfg envOf = .ok 0 ↔
      ∃ (eps : List Ep) (rs : List MuxResult),
        parse_episodes arg subFiles = .ok eps ∧ eps ≠ [] ∧
        (dryRun = true ∨ mkdirRes = .ok ()) ∧
        runAll version flag (if dryRun then RunMode.DRYRUN else RunMode.NORMAL)
          cfg envOf eps = .ok rs ∧
        ∀ r ∈ rs, r.success = true) ∧
    (∀ e : String, parse_episodes arg subFiles = .error e →
      main arg subFiles version flag dryRun mkdirRes cfg envOf = .ok 1) ∧
    (parse_episodes arg subFiles = .ok [] →
      main arg subFiles version flag dryRun mkdirRes cfg envOf = .ok 1) ∧
    (∀ (eps : List Ep) (rs : List MuxResult),
      parse_episodes arg subFiles = .ok eps →
      (dryRun = true ∨ mkdirRes = .ok ()) →
      runAll version flag (if dryRun then RunMode.DRYRUN else RunMode.NORMAL)
        cfg envOf eps = .ok rs →
      (∃ r ∈ rs, r.success = false) →
      main arg subFiles version flag dryRun mkdirRes cfg envOf = .ok 1) := by
  have hgate_ok : ∀ (h : dryRun = true ∨ mkdirRes = .ok ()),
      (if dryRun then Except.ok () else mkdirRes) = Except.ok () := by
    rintro (h | h)
    · simp [h]
    · cases dryRun <;> simp [h]
  refine ⟨⟨?_, ?_⟩, ?_, ?_, ?_⟩
  · -- forward direction of the iff
    intro h
    cases hparse : parse_episodes arg subFiles with
    | error e => simp only [main, hparse] at h; simp at h
    | ok eps =>
      simp only [main, hparse] at h
      split at h
      · simp at h
      · next hne =>
        split at h
        · simp at h
        · next u hgate =>
          split at h
          · simp at h
          · next rs hrun =>
            have h0 : ((rs.filter (fun r => r.success)).length == rs.length) = true := by
              cases hc : ((rs.filter (fun r => r.success)).length == rs.length) with
              | true => rfl
              | false => rw [hc] at h; simp at h
            refine ⟨eps, rs, rfl, ?_, ?_, hrun, (success_count_eq_iff rs).mp h0⟩
            · intro hnil
              rw [hnil] at hne
              exact hne rfl
            · cases hd : dryRun
              · rw [hd] at hgate
                simp only [Bool.false_eq_true, if_false] at hgate
                exact Or.inr hgate
              · exact Or.inl rfl
  · -- backward direction of the iff
    rintro ⟨eps, rs, hparse, hne, hgate, hrun, hsucc⟩
    have heps : eps.isEmpty = false := by
      cases eps
      · exact absurd rfl hne
      · rfl
    simp only [main, hparse, heps, Bool.false_eq_true, if_false, hgate_ok hgate, hrun,
      (success_count_eq_iff rs).mpr hsucc, if_pos]
  · -- a parsing error returns 1
    intro e hparse
    simp [main, hparse]
  · -- an empty episode list returns 1
    intro hparse
    simp [main, hparse]
  · -- a failed episode returns 1
    intro eps rs hparse hgate hrun hfail
    have hcnt : ((rs.filter (fun r => r.success)).length == rs.length) = false := by
      rcases hfail with ⟨r, hr, hrf⟩
      cases hc : ((rs.filter (fun r => r.success)).length == rs.length) with
      | false => rfl
      | true =>
        have hall := (success_count_eq_iff rs).mp hc r hr
        rw [hrf] at hall
        exact Bool.noConfusion hall
    cases heps : eps.isEmpty with
    | true => simp [main, hparse, heps]
    | false =>
      simp only [main, hparse, heps, Bool.false_eq_true, if_false, hgate_ok hgate, hrun, hcnt]

theorem C1_exit_status_witness :
    main ("1") [] 1 ("pololer") false (.ok ()) CONFIG (fun _ => env0) = .ok 0 ∧
    main ("1-2-3") [] 1 ("pololer") false (.ok ()) CONFIG (fun _ => env0) = .ok 1 ∧
    main ("5-3") [] 1 ("pololer") false (.ok ()) CONFIG (fun _ => env0) = .ok 1 := by
  refine ⟨?_, ?_, ?_⟩
  · exact (C1_exit_status ("1") [] 1 ("pololer") false (.ok ()) CONFIG (fun _ => env0)).1.mpr
      ⟨[.int 1], [{ episode := .int 1, success := true, error := none }], rfl,
        List.cons_ne_nil _ _, Or.inr rfl, rfl, by simp⟩
  · exact (C1_exit_status ("1-2-3") [] 1 ("pololer") false (.ok ()) CONFIG
      (fun _ => env0)).2.1 ("range segment did not unpack into two values") rfl
  · exact (C1_exit_status ("5-3") [] 1 ("pololer") false (.ok ()) CONFIG
      (fun _ => env0)).2.2.1 rfl


end MuxSystem
